import Mathlib

/-!
Verification development for `src/base/platform/mutex.cc`: the debug-build
bookkeeping of the four lock primitives (Mutex, RecursiveMutex, SharedMutex,
SpinningMutex).

Modelling conventions:
* A `SharedMutex*` pointer is modelled as a `Nat` identity; the calls under
  scrutiny always pass a non-null `this`, so `DCHECK_NOT_NULL` on the argument
  is met by construction.
* The two `thread_local` variables `single_held_shared_mutex` and
  `held_shared_mutexes` of one thread form a `TrackerState`; a null pointer is
  `none`, the `std::unordered_set` behind `held_shared_mutexes` is a
  `Finset Nat`.
* A fatal `DCHECK` failure is modelled as `none` in an `Option` result; the
  `some` result is the state after the operation ran without a violation.
* The native OS lock itself is an external collaborator: a blocking native
  acquisition always eventually returns, and the outcome of a native
  non-blocking acquisition is passed in as a `Bool` parameter.
-/

/-- The debug-build thread-local tracking state of one thread, from
`mutex.cc` lines 59-61: `single_held_shared_mutex` is a raw pointer
(fast path for a single held mutex) and `held_shared_mutexes` is a pointer to
a lazily allocated `std::unordered_set` (fallback for several held mutexes). -/
structure TrackerState where
  single_held_shared_mutex : Option Nat
  held_shared_mutexes : Option (Finset Nat)
  deriving DecidableEq

/-- The set of SharedMutex instances the thread currently holds, irrespective
of whether they sit in the single slot or in the fallback set. -/
def TrackerState.members (s : TrackerState) : Finset Nat :=
  (match s.single_held_shared_mutex with
   | some m => {m}
   | none => (∅ : Finset Nat)) ∪
  (match s.held_shared_mutexes with
   | some hs => hs
   | none => (∅ : Finset Nat))

/-- `SharedMutexNotHeld` (mutex.cc lines 64-69): true iff `shared_mutex` is
neither in the single slot nor in the fallback set. -/
def SharedMutexNotHeld (shared_mutex : Nat) (s : TrackerState) : Bool :=
  decide (s.single_held_shared_mutex ≠ some shared_mutex) &&
    (match s.held_shared_mutexes with
     | some hs => decide (shared_mutex ∉ hs)
     | none => true)

/-- `TryHoldSharedMutex` (mutex.cc lines 73-90). Returns `none` when the
internal `DCHECK_NULL(held_shared_mutexes)` in the promotion branch fails,
otherwise `some (inserted, next state)` where `inserted` is true iff the
mutex had not been held before the call.
The C++ `held_shared_mutexes->insert(shared_mutex)` leaves the set unchanged
and reports `second == false` when the element is already present; the two
branches of the inner `if` spell this out. -/
def TryHoldSharedMutex (shared_mutex : Nat) (s : TrackerState) :
    Option (Bool × TrackerState) :=
  match s.single_held_shared_mutex, s.held_shared_mutexes with
  | some cur, oh =>
    if shared_mutex = cur then
      some (false, s)
    else
      match oh with
      | some _ => none
      | none => some (true, ⟨none, some {cur, shared_mutex}⟩)
  | none, some hs =>
    if shared_mutex ∈ hs then
      some (false, s)
    else
      some (true, ⟨none, some (insert shared_mutex hs)⟩)
  | none, none => some (true, ⟨some shared_mutex, none⟩)

/-- `TryReleaseSharedMutex` (mutex.cc lines 94-108). Returns
`(released, next state)` where `released` is true iff the mutex had been held;
the fallback set is deleted exactly when the erase empties it. -/
def TryReleaseSharedMutex (shared_mutex : Nat) (s : TrackerState) :
    Bool × TrackerState :=
  if s.single_held_shared_mutex = some shared_mutex then
    (true, ⟨none, s.held_shared_mutexes⟩)
  else
    match s.held_shared_mutexes with
    | some hs =>
      if shared_mutex ∈ hs then
        if hs.erase shared_mutex = ∅ then
          (true, ⟨s.single_held_shared_mutex, none⟩)
        else
          (true, ⟨s.single_held_shared_mutex, some (hs.erase shared_mutex)⟩)
      else
        (false, s)
    | none => (false, s)

/-- Well-formedness of a tracker state: the single slot and the fallback set
are never simultaneously non-null, and an allocated fallback set is
non-empty. -/
def TrackerWF (s : TrackerState) : Prop :=
  (s.single_held_shared_mutex = none ∨ s.held_shared_mutexes = none) ∧
  s.held_shared_mutexes ≠ some (∅ : Finset Nat)

instance (s : TrackerState) : Decidable (TrackerWF s) := by
  unfold TrackerWF
  infer_instance

/-- The tracker states a thread can reach by any sequence of
`TryHoldSharedMutex` and `TryReleaseSharedMutex` calls that does not trip an
internal assertion, starting from the initial all-null thread-local state. -/
inductive TrackerReachable : TrackerState → Prop where
  | init : TrackerReachable ⟨none, none⟩
  | hold {s s' : TrackerState} {m : Nat} {b : Bool} :
      TrackerReachable s → TryHoldSharedMutex m s = some (b, s') →
      TrackerReachable s'
  | release {s s' : TrackerState} {m : Nat} {b : Bool} :
      TrackerReachable s → TryReleaseSharedMutex m s = (b, s') →
      TrackerReachable s'

/-- `SharedMutex::LockShared` (mutex.cc lines 263-266), debug bookkeeping:
`DCHECK(TryHoldSharedMutex(this))` runs the tracker update and is fatal
(`none`) when the mutex was already held by this thread or an internal
tracker assertion fired. The native `ReaderLock` is an external blocking
call and is not part of the tracked state. -/
def SharedMutex.LockShared (m : Nat) (s : TrackerState) : Option TrackerState :=
  match TryHoldSharedMutex m s with
  | some (true, s') => some s'
  | _ => none

/-- `SharedMutex::LockExclusive` (mutex.cc lines 268-271), debug bookkeeping:
identical tracker update to `LockShared`; only the native call differs. -/
def SharedMutex.LockExclusive (m : Nat) (s : TrackerState) : Option TrackerState :=
  match TryHoldSharedMutex m s with
  | some (true, s') => some s'
  | _ => none

/-- `SharedMutex::UnlockShared` (mutex.cc lines 273-276), debug bookkeeping:
`DCHECK(TryReleaseSharedMutex(this))` is fatal (`none`) when the mutex was
not held by this thread. -/
def SharedMutex.UnlockShared (m : Nat) (s : TrackerState) : Option TrackerState :=
  match TryReleaseSharedMutex m s with
  | (true, s') => some s'
  | (false, _) => none

/-- `SharedMutex::UnlockExclusive` (mutex.cc lines 278-281), debug
bookkeeping: identical tracker update to `UnlockShared`. -/
def SharedMutex.UnlockExclusive (m : Nat) (s : TrackerState) : Option TrackerState :=
  match TryReleaseSharedMutex m s with
  | (true, s') => some s'
  | (false, _) => none

/-- `SharedMutex::TryLockShared` (mutex.cc lines 283-289). `nativeOk` is the
outcome of the external non-blocking `native_handle_.ReaderTryLock()`.
`DCHECK(SharedMutexNotHeld(this))` runs first; the tracker is updated only
when the native acquisition succeeded, through
`DCHECK(TryHoldSharedMutex(this))`. -/
def SharedMutex.TryLockShared (m : Nat) (nativeOk : Bool) (s : TrackerState) :
    Option (Bool × TrackerState) :=
  if SharedMutexNotHeld m s then
    if nativeOk then
      match TryHoldSharedMutex m s with
      | some (true, s') => some (true, s')
      | _ => none
    else
      some (false, s)
  else
    none

/-- `SharedMutex::TryLockExclusive` (mutex.cc lines 291-297): identical
tracker behaviour to `TryLockShared`; only the native call differs. -/
def SharedMutex.TryLockExclusive (m : Nat) (nativeOk : Bool) (s : TrackerState) :
    Option (Bool × TrackerState) :=
  if SharedMutexNotHeld m s then
    if nativeOk then
      match TryHoldSharedMutex m s with
      | some (true, s') => some (true, s')
      | _ => none
    else
      some (false, s)
  else
    none

/-!
`Mutex` (the exclusive mutex). Its debug state is the per-instance `int`
field `level_`. The source file sets `level_ = 0` in the constructor
(mutex.cc lines 299-303), checks `DCHECK_EQ(0, level_)` in the destructor
(line 305), and calls `AssertUnheldAndMark` / `AssertHeldAndUnmark` in
`Lock` / `Unlock` / `TryLock` (lines 307-321).
-/

/-- Modelled from the spec: `Mutex::AssertUnheldAndMark` is declared in
`src/base/platform/mutex.h`, which is not among the provided sources; per the
spec, on acquisition the debug counter is asserted to be 0 and set to 1
(fatal assertion, modelled as `none`, otherwise). -/
def AssertUnheldAndMark (level : Int) : Option Int :=
  if level = 0 then some 1 else none

/-- Modelled from the spec: `Mutex::AssertHeldAndUnmark` is declared in
`src/base/platform/mutex.h`, which is not among the provided sources; per the
spec, on release the debug counter is asserted to be 1 and set back to 0
(fatal assertion, modelled as `none`, otherwise). -/
def AssertHeldAndUnmark (level : Int) : Option Int :=
  if level = 1 then some 0 else none

/-- `Mutex::Mutex` (mutex.cc lines 299-303): the debug level starts at 0. -/
def Mutex.construct : Int := 0

/-- `Mutex::Lock` (mutex.cc lines 307-310): blocking native acquisition
(external, always eventually succeeds), then `AssertUnheldAndMark`. -/
def Mutex.Lock (level : Int) : Option Int :=
  AssertUnheldAndMark level

/-- `Mutex::Unlock` (mutex.cc lines 312-315): `AssertHeldAndUnmark`, then the
native release (external). -/
def Mutex.Unlock (level : Int) : Option Int :=
  AssertHeldAndUnmark level

/-- `Mutex::TryLock` (mutex.cc lines 317-321): `nativeOk` is the outcome of
the external `native_handle_.TryLock()`; on failure it returns false with no
debug transition, on success it runs `AssertUnheldAndMark` and returns
true. -/
def Mutex.TryLock (nativeOk : Bool) (level : Int) : Option (Bool × Int) :=
  if nativeOk then
    (AssertUnheldAndMark level).map (fun l => (true, l))
  else
    some (false, level)

/-- `Mutex::~Mutex` (mutex.cc line 305): `DCHECK_EQ(0, level_)`. -/
def Mutex.destruct (level : Int) : Option Unit :=
  if level = 0 then some () else none

/-- The debug levels a single `Mutex` instance can exhibit across any
sequence of Lock, Unlock and TryLock calls that does not trip an assertion,
starting from construction. -/
inductive MutexReachable : Int → Prop where
  | init : MutexReachable Mutex.construct
  | lock {l l' : Int} :
      MutexReachable l → Mutex.Lock l = some l' → MutexReachable l'
  | unlock {l l' : Int} :
      MutexReachable l → Mutex.Unlock l = some l' → MutexReachable l'
  | tryLock {l l' : Int} {nativeOk r : Bool} :
      MutexReachable l → Mutex.TryLock nativeOk l = some (r, l') →
      MutexReachable l'

/-!
`RecursiveMutex` (POSIX variant, mutex.cc lines 158-199). Debug state is the
per-instance `int` field `level_`.
-/

/-- `RecursiveMutex::RecursiveMutex` (mutex.cc lines 158-163): `level_ = 0`. -/
def RecursiveMutex.construct : Int := 0

/-- `RecursiveMutex::Lock` (mutex.cc lines 172-178): blocking native
acquisition (external, eventually succeeds for the owning or a fresh thread),
then `DCHECK_LE(0, level_); level_++`. -/
def RecursiveMutex.Lock (level : Int) : Option Int :=
  if 0 ≤ level then some (level + 1) else none

/-- `RecursiveMutex::Unlock` (mutex.cc lines 181-187):
`DCHECK_LT(0, level_); level_--`, then the native release (external). -/
def RecursiveMutex.Unlock (level : Int) : Option Int :=
  if 0 < level then some (level - 1) else none

/-- `RecursiveMutex::TryLock` (mutex.cc lines 190-199): `nativeOk` is the
outcome of the external `TryLockNativeHandle`; failure returns false with no
debug transition, success runs `DCHECK_LE(0, level_); level_++`. -/
def RecursiveMutex.TryLock (nativeOk : Bool) (level : Int) : Option (Bool × Int) :=
  if nativeOk then
    if 0 ≤ level then some (true, level + 1) else none
  else
    some (false, level)

/-- `RecursiveMutex::~RecursiveMutex` (mutex.cc lines 166-169):
`DCHECK_EQ(0, level_)`. -/
def RecursiveMutex.destruct (level : Int) : Option Unit :=
  if level = 0 then some () else none

/-- The debug depths a single `RecursiveMutex` instance can exhibit across
any sequence of Lock, Unlock and TryLock calls that does not trip an
assertion, starting from construction. -/
inductive RecursiveMutexReachable : Int → Prop where
  | init : RecursiveMutexReachable RecursiveMutex.construct
  | lock {l l' : Int} :
      RecursiveMutexReachable l → RecursiveMutex.Lock l = some l' →
      RecursiveMutexReachable l'
  | unlock {l l' : Int} :
      RecursiveMutexReachable l → RecursiveMutex.Unlock l = some l' →
      RecursiveMutexReachable l'
  | tryLock {l l' : Int} {nativeOk r : Bool} :
      RecursiveMutexReachable l → RecursiveMutex.TryLock nativeOk l = some (r, l') →
      RecursiveMutexReachable l'

/-!
`SpinningMutex`, Darwin variant (mutex.cc lines 21-45 and 323-327).
-/

/-- `OS_UNFAIR_LOCK_DATA_SYNCHRONIZATION` (mutex.cc line 25). -/
def OS_UNFAIR_LOCK_DATA_SYNCHRONIZATION : Nat := 0x00010000

/-- `OS_UNFAIR_LOCK_ADAPTIVE_SPIN` (mutex.cc line 26). -/
def OS_UNFAIR_LOCK_ADAPTIVE_SPIN : Nat := 0x00040000

/-- The native call a Darwin `SpinningMutex::Lock` execution issues on its
`os_unfair_lock` member. -/
inductive UnfairLockCall where
  | lockWithOptions (options : Nat)
  | lockBaseline
  deriving DecidableEq

/-- `SpinningMutex::Lock`, Darwin variant (mutex.cc lines 36-45): the body
tests the weakly linked symbol `os_unfair_lock_lock_with_options`; when it is
non-null the lock is acquired through it with the combined options, otherwise
through the baseline `os_unfair_lock_lock` with no options.
`withOptionsAvailable` states whether the weak symbol resolved to a non-null
address in this process (fixed at load time). -/
def SpinningMutex.LockDarwin (withOptionsAvailable : Bool) : UnfairLockCall :=
  if withOptionsAvailable then
    UnfairLockCall.lockWithOptions
      (OS_UNFAIR_LOCK_DATA_SYNCHRONIZATION ||| OS_UNFAIR_LOCK_ADAPTIVE_SPIN)
  else
    UnfairLockCall.lockBaseline

/-- One execution of the Darwin `SpinningMutex::Lock` body with its probes of
the weak symbol made explicit: the body evaluates
`if (os_unfair_lock_lock_with_options)` exactly once on every call
(mutex.cc line 37); there is no cached resolved function pointer or
once-guard in the source, so the count is 1 per execution. -/
def SpinningMutex.LockDarwinTraced (withOptionsAvailable : Bool) :
    Nat × UnfairLockCall :=
  (1, SpinningMutex.LockDarwin withOptionsAvailable)

/-- Total number of weak-symbol probes performed by `n` consecutive
executions of the Darwin `SpinningMutex::Lock` body within one process in
which the weak symbol has availability `withOptionsAvailable`. -/
def spinningMutexLockProbes (withOptionsAvailable : Bool) (n : Nat) : Nat :=
  n * (SpinningMutex.LockDarwinTraced withOptionsAvailable).1

/-- The three representation shapes of the thread-local held-set described in
the design notes: no held mutex, the single fast slot, or the allocated
fallback set. -/
inductive ReprKind where
  | Empty
  | Single
  | Many
  deriving DecidableEq

/-- The representation shape a tracker state is in. -/
def TrackerState.reprKind (s : TrackerState) : ReprKind :=
  match s.single_held_shared_mutex, s.held_shared_mutexes with
  | some _, _ => ReprKind.Single
  | none, some _ => ReprKind.Many
  | none, none => ReprKind.Empty
lemma mem_members {m : Nat} {s : TrackerState} :
    m ∈ s.members ↔
      s.single_held_shared_mutex = some m ∨
      (∃ hs, s.held_shared_mutexes = some hs ∧ m ∈ hs) := by
  obtain ⟨os, oh⟩ := s
  cases os <;> cases oh <;>
    simp [TrackerState.members, eq_comm]

lemma notHeld_iff {m : Nat} {s : TrackerState} :
    SharedMutexNotHeld m s = true ↔ m ∉ s.members := by
  obtain ⟨os, oh⟩ := s
  cases os <;> cases oh <;>
    simp [SharedMutexNotHeld, TrackerState.members, not_or] <;>
    tauto

/-- Run of `TryHoldSharedMutex` on a well-formed state: on an already held
mutex it reports `false` and leaves the state alone; on a mutex not yet held
it reports `true` and the held set grows by exactly that mutex, preserving
well-formedness. -/
lemma tryHold_spec {m : Nat} {s : TrackerState} (hwf : TrackerWF s) :
    (m ∈ s.members → TryHoldSharedMutex m s = some (false, s)) ∧
    (m ∉ s.members → ∃ s', TryHoldSharedMutex m s = some (true, s') ∧
       s'.members = insert m s.members ∧ TrackerWF s') := by
  obtain ⟨os, oh⟩ := s
  cases os with
  | none =>
    cases oh with
    | none =>
      refine ⟨fun hm => ?_, fun hm => ⟨⟨some m, none⟩, ?_, ?_, Or.inr rfl, by simp⟩⟩
      · simp [TrackerState.members] at hm
      · simp [TryHoldSharedMutex]
      · simp [TrackerState.members]
    | some hs =>
      by_cases hm : m ∈ hs
      · refine ⟨fun _ => ?_, fun hnot => ?_⟩
        · simp [TryHoldSharedMutex, hm]
        · exact absurd (by simp [TrackerState.members, hm]) hnot
      · refine ⟨fun hmem => ?_, fun _ => ⟨⟨none, some (insert m hs)⟩, ?_, ?_, Or.inl rfl, ?_⟩⟩
        · simp [TrackerState.members, hm] at hmem
        · simp [TryHoldSharedMutex, hm]
        · simp [TrackerState.members]
        · simp [Finset.insert_ne_empty]
  | some c =>
    cases oh with
    | some hs =>
      rcases hwf.1 with h | h <;> simp at h
    | none =>
      by_cases hm : m = c
      · subst hm
        refine ⟨fun _ => ?_, fun hnot => ?_⟩
        · simp [TryHoldSharedMutex]
        · exact absurd (by simp [TrackerState.members]) hnot
      · refine ⟨fun hmem => ?_, fun _ => ⟨⟨none, some {c, m}⟩, ?_, ?_, Or.inl rfl, ?_⟩⟩
        · simp [TrackerState.members, hm] at hmem
        · simp [TryHoldSharedMutex, hm]
        · simp [TrackerState.members, Finset.pair_comm c m]
        · simp [Finset.insert_ne_empty]

/-- Run of `TryReleaseSharedMutex` on a well-formed state: on a mutex that is
not held it reports `false` and leaves the state alone; on a held mutex it
reports `true` and the held set shrinks by exactly that mutex, preserving
well-formedness. -/
lemma tryRelease_spec {m : Nat} {s : TrackerState} (hwf : TrackerWF s) :
    (m ∉ s.members → TryReleaseSharedMutex m s = (false, s)) ∧
    (m ∈ s.members → ∃ s', TryReleaseSharedMutex m s = (true, s') ∧
       s'.members = s.members.erase m ∧ TrackerWF s') := by
  obtain ⟨os, oh⟩ := s
  cases os with
  | none =>
    cases oh with
    | none =>
      refine ⟨fun _ => by simp [TryReleaseSharedMutex], fun hmem => ?_⟩
      simp [TrackerState.members] at hmem
    | some hs =>
      by_cases hm : m ∈ hs
      · refine ⟨fun hnot => absurd (by simp [TrackerState.members, hm]) hnot, fun _ => ?_⟩
        by_cases he : hs.erase m = ∅
        · exact ⟨⟨none, none⟩, by simp [TryReleaseSharedMutex, hm, he],
            by simp [TrackerState.members, he], Or.inl rfl, by simp⟩
        · exact ⟨⟨none, some (hs.erase m)⟩, by simp [TryReleaseSharedMutex, hm, he],
            by simp [TrackerState.members], Or.inl rfl, by simp [he]⟩
      · refine ⟨fun _ => by simp [TryReleaseSharedMutex, hm], fun hmem => ?_⟩
        simp [TrackerState.members, hm] at hmem
  | some c =>
    cases oh with
    | some hs =>
      rcases hwf.1 with h | h <;> simp at h
    | none =>
      by_cases hm : m = c
      · subst hm
        refine ⟨fun hnot => absurd (by simp [TrackerState.members]) hnot, fun _ => ?_⟩
        exact ⟨⟨none, none⟩, by simp [TryReleaseSharedMutex],
          by simp [TrackerState.members], Or.inl rfl, by simp⟩
      · refine ⟨fun _ => ?_, fun hmem => ?_⟩
        · simp [TryReleaseSharedMutex, hm, Ne.symm hm]
        · simp [TrackerState.members, hm] at hmem

lemma tryHold_wf {m : Nat} {b : Bool} {s s' : TrackerState} (hwf : TrackerWF s)
    (h : TryHoldSharedMutex m s = some (b, s')) : TrackerWF s' := by
  by_cases hm : m ∈ s.members
  · have h0 := (tryHold_spec hwf).1 hm
    rw [h0] at h
    obtain ⟨-, rfl⟩ : false = b ∧ s = s' := by simpa using h
    exact hwf
  · obtain ⟨t, ht, -, htwf⟩ := (tryHold_spec hwf).2 hm
    rw [ht] at h
    obtain ⟨-, rfl⟩ : true = b ∧ t = s' := by simpa using h
    exact htwf

lemma tryRelease_wf {m : Nat} {b : Bool} {s s' : TrackerState} (hwf : TrackerWF s)
    (h : TryReleaseSharedMutex m s = (b, s')) : TrackerWF s' := by
  by_cases hm : m ∈ s.members
  · obtain ⟨t, ht, -, htwf⟩ := (tryRelease_spec hwf).2 hm
    rw [ht] at h
    obtain ⟨-, rfl⟩ : true = b ∧ t = s' := by simpa using h
    exact htwf
  · have h0 := (tryRelease_spec hwf).1 hm
    rw [h0] at h
    obtain ⟨-, rfl⟩ : false = b ∧ s = s' := by simpa using h
    exact hwf

/-- Every reachable tracker state is well-formed. -/
lemma trackerReachable_wf {s : TrackerState} (h : TrackerReachable s) :
    TrackerWF s := by
  induction h with
  | init => exact ⟨Or.inl rfl, by simp⟩
  | hold _ heq ih => exact tryHold_wf ih heq
  | release _ heq ih => exact tryRelease_wf ih heq

lemma mutexReachable_zero_or_one {l : Int} (h : MutexReachable l) :
    l = 0 ∨ l = 1 := by
  induction h with
  | init => exact Or.inl rfl
  | lock _ heq ih =>
    unfold Mutex.Lock AssertUnheldAndMark at heq
    split at heq
    · injection heq with heq
      omega
    · exact Option.noConfusion heq
  | unlock _ heq ih =>
    unfold Mutex.Unlock AssertHeldAndUnmark at heq
    split at heq
    · injection heq with heq
      omega
    · exact Option.noConfusion heq
  | tryLock _ heq ih =>
    unfold Mutex.TryLock AssertUnheldAndMark at heq
    split at heq
    · split at heq
      · injection heq with heq
        injection heq with h1 h2
        omega
      · exact Option.noConfusion heq
    · injection heq with heq
      injection heq with h1 h2
      omega

lemma recursiveMutexReachable_nonneg {l : Int} (h : RecursiveMutexReachable l) :
    0 ≤ l := by
  induction h with
  | init => exact le_refl 0
  | lock _ heq ih =>
    unfold RecursiveMutex.Lock at heq
    rw [if_pos ih] at heq
    injection heq with heq
    omega
  | unlock _ heq ih =>
    unfold RecursiveMutex.Unlock at heq
    split at heq
    · injection heq with heq
      omega
    · exact Option.noConfusion heq
  | tryLock _ heq ih =>
    unfold RecursiveMutex.TryLock at heq
    rw [if_pos ih] at heq
    split at heq <;>
      (injection heq with heq; injection heq with h1 h2; omega)

/-!
Claim theorems.
-/

/-- Claim C1: for every SharedMutex instance and every calling thread (a
well-formed tracker state), `LockShared` and `LockExclusive` assert that the
held-set of the thread does not already contain the instance (fatal `DCHECK`,
modelled `none`, when it does) and add it to the held-set, and
`UnlockShared` and `UnlockExclusive` assert that the instance is present in
the held-set (fatal when it is not) and remove it; hence a thread can never
hold the same SharedMutex twice concurrently, regardless of mode. -/
theorem C1_lock_unlock_held_set (m : Nat) (s : TrackerState) (hwf : TrackerWF s) :
    (m ∈ s.members →
      SharedMutex.LockShared m s = none ∧ SharedMutex.LockExclusive m s = none) ∧
    (m ∉ s.members → ∃ s',
      SharedMutex.LockShared m s = some s' ∧
      SharedMutex.LockExclusive m s = some s' ∧
      s'.members = insert m s.members) ∧
    (m ∉ s.members →
      SharedMutex.UnlockShared m s = none ∧ SharedMutex.UnlockExclusive m s = none) ∧
    (m ∈ s.members → ∃ s',
      SharedMutex.UnlockShared m s = some s' ∧
      SharedMutex.UnlockExclusive m s = some s' ∧
      s'.members = s.members.erase m) := by
  refine ⟨fun hm => ?_, fun hm => ?_, fun hm => ?_, fun hm => ?_⟩
  · have h := (tryHold_spec hwf).1 hm
    exact ⟨by simp [SharedMutex.LockShared, h], by simp [SharedMutex.LockExclusive, h]⟩
  · obtain ⟨s', h, hmem, -⟩ := (tryHold_spec hwf).2 hm
    exact ⟨s', by simp [SharedMutex.LockShared, h],
      by simp [SharedMutex.LockExclusive, h], hmem⟩
  · have h := (tryRelease_spec hwf).1 hm
    exact ⟨by simp [SharedMutex.UnlockShared, h], by simp [SharedMutex.UnlockExclusive, h]⟩
  · obtain ⟨s', h, hmem, -⟩ := (tryRelease_spec hwf).2 hm
    exact ⟨s', by simp [SharedMutex.UnlockShared, h],
      by simp [SharedMutex.UnlockExclusive, h], hmem⟩

theorem C1_lock_unlock_held_set_witness :
    TrackerWF ⟨none, none⟩ ∧
    ((1 ∈ TrackerState.members ⟨none, none⟩ →
      SharedMutex.LockShared 1 ⟨none, none⟩ = none ∧
      SharedMutex.LockExclusive 1 ⟨none, none⟩ = none) ∧
    (1 ∉ TrackerState.members ⟨none, none⟩ → ∃ s',
      SharedMutex.LockShared 1 ⟨none, none⟩ = some s' ∧
      SharedMutex.LockExclusive 1 ⟨none, none⟩ = some s' ∧
      s'.members = insert 1 (TrackerState.members ⟨none, none⟩)) ∧
    (1 ∉ TrackerState.members ⟨none, none⟩ →
      SharedMutex.UnlockShared 1 ⟨none, none⟩ = none ∧
      SharedMutex.UnlockExclusive 1 ⟨none, none⟩ = none) ∧
    (1 ∈ TrackerState.members ⟨none, none⟩ → ∃ s',
      SharedMutex.UnlockShared 1 ⟨none, none⟩ = some s' ∧
      SharedMutex.UnlockExclusive 1 ⟨none, none⟩ = some s' ∧
      s'.members = (TrackerState.members ⟨none, none⟩).erase 1)) :=
  ⟨by decide, C1_lock_unlock_held_set 1 ⟨none, none⟩ (by decide)⟩

/-- Claim C3: for every SharedMutex instance, `TryLockShared` and
`TryLockExclusive` first assert the instance is not already held by the
calling thread (fatal when it is), then attempt the native non-blocking
acquisition, and add the instance to the held-set only when the acquisition
succeeded; when it fails they return false and leave the held-set
unchanged. -/
theorem C3_trylock_adds_only_on_success (m : Nat) (nativeOk : Bool)
    (s : TrackerState) (hwf : TrackerWF s) :
    (m ∈ s.members →
      SharedMutex.TryLockShared m nativeOk s = none ∧
      SharedMutex.TryLockExclusive m nativeOk s = none) ∧
    (m ∉ s.members → nativeOk = false →
      SharedMutex.TryLockShared m nativeOk s = some (false, s) ∧
      SharedMutex.TryLockExclusive m nativeOk s = some (false, s)) ∧
    (m ∉ s.members → nativeOk = true → ∃ s',
      SharedMutex.TryLockShared m nativeOk s = some (true, s') ∧
      SharedMutex.TryLockExclusive m nativeOk s = some (true, s') ∧
      s'.members = insert m s.members) := by
  refine ⟨fun hm => ?_, fun hm hn => ?_, fun hm hn => ?_⟩
  · have h : SharedMutexNotHeld m s = false :=
      Bool.eq_false_iff.mpr (fun ht => notHeld_iff.mp ht hm)
    exact ⟨by simp [SharedMutex.TryLockShared, h],
      by simp [SharedMutex.TryLockExclusive, h]⟩
  · subst hn
    have h : SharedMutexNotHeld m s = true := notHeld_iff.mpr hm
    exact ⟨by simp [SharedMutex.TryLockShared, h],
      by simp [SharedMutex.TryLockExclusive, h]⟩
  · subst hn
    have h : SharedMutexNotHeld m s = true := notHeld_iff.mpr hm
    obtain ⟨s', hh, hmem, -⟩ := (tryHold_spec hwf).2 hm
    exact ⟨s', by simp [SharedMutex.TryLockShared, h, hh],
      by simp [SharedMutex.TryLockExclusive, h, hh], hmem⟩

theorem C3_trylock_adds_only_on_success_witness :
    TrackerWF ⟨none, none⟩ ∧
    ((1 ∈ TrackerState.members ⟨none, none⟩ →
      SharedMutex.TryLockShared 1 true ⟨none, none⟩ = none ∧
      SharedMutex.TryLockExclusive 1 true ⟨none, none⟩ = none) ∧
    (1 ∉ TrackerState.members ⟨none, none⟩ → true = false →
      SharedMutex.TryLockShared 1 true ⟨none, none⟩ = some (false, ⟨none, none⟩) ∧
      SharedMutex.TryLockExclusive 1 true ⟨none, none⟩ = some (false, ⟨none, none⟩)) ∧
    (1 ∉ TrackerState.members ⟨none, none⟩ → true = true → ∃ s',
      SharedMutex.TryLockShared 1 true ⟨none, none⟩ = some (true, s') ∧
      SharedMutex.TryLockExclusive 1 true ⟨none, none⟩ = some (true, s') ∧
      s'.members = insert 1 (TrackerState.members ⟨none, none⟩))) :=
  ⟨by decide, C3_trylock_adds_only_on_success 1 true ⟨none, none⟩ (by decide)⟩

/-- Claim C2 counterexample: start empty, hold instance 1 (Empty to Single),
hold instance 2 (Single to Many), then release instance 1. Exactly one
instance is still held, yet the representation is still the fallback set,
kind Many, not Single: shrinking never produces a Many to Single transition,
so declining through {Many, Single, Empty} as claimed is refuted. -/
theorem C2_counterexample :
    TryHoldSharedMutex 1 ⟨none, none⟩ = some (true, ⟨some 1, none⟩) ∧
    TryHoldSharedMutex 2 ⟨some 1, none⟩ = some (true, ⟨none, some {1, 2}⟩) ∧
    TryReleaseSharedMutex 1 ⟨none, some {1, 2}⟩ = (true, ⟨none, some {2}⟩) ∧
    (TrackerState.members ⟨none, some ({2} : Finset Nat)⟩).card = 1 ∧
    TrackerState.reprKind ⟨none, some ({2} : Finset Nat)⟩ ≠ ReprKind.Single := by
  decide

/-- Claim C2 (amended): the held-set representation is the tagged variant
{Empty, Single, Many}. Growth transitions Empty to Single (adding when the
single slot is empty fills the slot), Single to Many on a second distinct
instance (moving the slot content into the freshly allocated fallback set),
and Many to Many. On shrinkage the fallback set is kept while it remains
non-empty - even when only a single instance remains, so there is no Many to
Single transition - and removing from the fallback set until it becomes
empty deallocates the fallback and reverts directly to Empty; releasing the
slot-held instance reverts Single to Empty. -/
theorem C2_representation_transitions (m : Nat) (s : TrackerState)
    (hwf : TrackerWF s) :
    (s.reprKind = ReprKind.Empty →
      TryHoldSharedMutex m s = some (true, ⟨some m, none⟩) ∧
      TrackerState.reprKind ⟨some m, none⟩ = ReprKind.Single) ∧
    (∀ c, s.single_held_shared_mutex = some c → m ≠ c →
      TryHoldSharedMutex m s = some (true, ⟨none, some {c, m}⟩) ∧
      TrackerState.reprKind ⟨none, some {c, m}⟩ = ReprKind.Many) ∧
    (∀ hs, s.held_shared_mutexes = some hs → m ∉ hs →
      TryHoldSharedMutex m s = some (true, ⟨none, some (insert m hs)⟩) ∧
      TrackerState.reprKind ⟨none, some (insert m hs)⟩ = ReprKind.Many) ∧
    (s.single_held_shared_mutex = some m →
      TryReleaseSharedMutex m s = (true, ⟨none, none⟩) ∧
      TrackerState.reprKind ⟨none, none⟩ = ReprKind.Empty) ∧
    (∀ hs, s.held_shared_mutexes = some hs → m ∈ hs → hs.erase m ≠ ∅ →
      TryReleaseSharedMutex m s = (true, ⟨none, some (hs.erase m)⟩) ∧
      TrackerState.reprKind ⟨none, some (hs.erase m)⟩ = ReprKind.Many) ∧
    (∀ hs, s.held_shared_mutexes = some hs → m ∈ hs → hs.erase m = ∅ →
      TryReleaseSharedMutex m s = (true, ⟨none, none⟩)) := by
  obtain ⟨os, oh⟩ := s
  refine ⟨?_, ?_, ?_, ?_, ?_, ?_⟩
  · intro hk
    cases os with
    | some c => simp [TrackerState.reprKind] at hk
    | none =>
      cases oh with
      | some hs => simp [TrackerState.reprKind] at hk
      | none => exact ⟨by simp [TryHoldSharedMutex], rfl⟩
  · rintro c hc hm
    cases os with
    | none => simp at hc
    | some c0 =>
      injection hc with hc
      subst hc
      cases oh with
      | some hs => rcases hwf.1 with h | h <;> simp at h
      | none => exact ⟨by simp [TryHoldSharedMutex, hm], rfl⟩
  · rintro hs hh hm
    cases oh with
    | none => simp at hh
    | some hs0 =>
      injection hh with hh
      subst hh
      cases os with
      | some c => rcases hwf.1 with h | h <;> simp at h
      | none => exact ⟨by simp [TryHoldSharedMutex, hm], rfl⟩
  · intro hc
    cases os with
    | none => simp at hc
    | some c0 =>
      injection hc with hc
      subst hc
      cases oh with
      | some hs => rcases hwf.1 with h | h <;> simp at h
      | none => exact ⟨by simp [TryReleaseSharedMutex], rfl⟩
  · rintro hs hh hm hne
    cases oh with
    | none => simp at hh
    | some hs0 =>
      injection hh with hh
      subst hh
      cases os with
      | some c => rcases hwf.1 with h | h <;> simp at h
      | none => exact ⟨by simp [TryReleaseSharedMutex, hm, hne], rfl⟩
  · rintro hs hh hm he
    cases oh with
    | none => simp at hh
    | some hs0 =>
      injection hh with hh
      subst hh
      cases os with
      | some c => rcases hwf.1 with h | h <;> simp at h
      | none => simp [TryReleaseSharedMutex, hm, he]

theorem C2_representation_transitions_witness :
    TrackerWF ⟨none, none⟩ ∧
    ((TrackerState.reprKind ⟨none, none⟩ = ReprKind.Empty →
      TryHoldSharedMutex 1 ⟨none, none⟩ = some (true, ⟨some 1, none⟩) ∧
      TrackerState.reprKind ⟨some 1, none⟩ = ReprKind.Single) ∧
    (∀ c, (TrackerState.mk none none).single_held_shared_mutex = some c → 1 ≠ c →
      TryHoldSharedMutex 1 ⟨none, none⟩ = some (true, ⟨none, some {c, 1}⟩) ∧
      TrackerState.reprKind ⟨none, some {c, 1}⟩ = ReprKind.Many) ∧
    (∀ hs, (TrackerState.mk none none).held_shared_mutexes = some hs → 1 ∉ hs →
      TryHoldSharedMutex 1 ⟨none, none⟩ = some (true, ⟨none, some (insert 1 hs)⟩) ∧
      TrackerState.reprKind ⟨none, some (insert 1 hs)⟩ = ReprKind.Many) ∧
    ((TrackerState.mk none none).single_held_shared_mutex = some 1 →
      TryReleaseSharedMutex 1 ⟨none, none⟩ = (true, ⟨none, none⟩) ∧
      TrackerState.reprKind ⟨none, none⟩ = ReprKind.Empty) ∧
    (∀ hs, (TrackerState.mk none none).held_shared_mutexes = some hs →
      1 ∈ hs → hs.erase 1 ≠ ∅ →
      TryReleaseSharedMutex 1 ⟨none, none⟩ = (true, ⟨none, some (hs.erase 1)⟩) ∧
      TrackerState.reprKind ⟨none, some (hs.erase 1)⟩ = ReprKind.Many) ∧
    (∀ hs, (TrackerState.mk none none).held_shared_mutexes = some hs →
      1 ∈ hs → hs.erase 1 = ∅ →
      TryReleaseSharedMutex 1 ⟨none, none⟩ = (true, ⟨none, none⟩))) :=
  ⟨by decide, C2_representation_transitions 1 ⟨none, none⟩ (by decide)⟩

/-- Claim C9: in every thread-local tracker state reachable by sequences of
`TryHoldSharedMutex` and `TryReleaseSharedMutex` from the initial empty
state, the single-slot pointer and the fallback-set pointer are never both
non-null, and whenever the fallback set is allocated it is non-empty. -/
theorem C9_tracker_invariant (s : TrackerState) (h : TrackerReachable s) :
    ¬(s.single_held_shared_mutex ≠ none ∧ s.held_shared_mutexes ≠ none) ∧
    s.held_shared_mutexes ≠ some (∅ : Finset Nat) := by
  obtain ⟨h1, h2⟩ := trackerReachable_wf h
  refine ⟨fun hc => ?_, h2⟩
  rcases h1 with h1 | h1
  · exact hc.1 h1
  · exact hc.2 h1

theorem C9_tracker_invariant_witness :
    ¬((TrackerState.mk none none).single_held_shared_mutex ≠ none ∧
      (TrackerState.mk none none).held_shared_mutexes ≠ none) ∧
    (TrackerState.mk none none).held_shared_mutexes ≠ some (∅ : Finset Nat) :=
  C9_tracker_invariant ⟨none, none⟩ TrackerReachable.init

/-- Claim C10: from every reachable tracker state and every instance `m` not
currently held, `TryHoldSharedMutex m` returns true, `TryReleaseSharedMutex
m` immediately afterwards returns true, and the resulting set of held
instances (as a set, independent of slot-versus-fallback representation)
equals the original. -/
theorem C10_hold_release_roundtrip (m : Nat) (s : TrackerState)
    (h : TrackerReachable s) (hm : m ∉ s.members) :
    ∃ s1 s2,
      TryHoldSharedMutex m s = some (true, s1) ∧
      TryReleaseSharedMutex m s1 = (true, s2) ∧
      s2.members = s.members := by
  have hwf := trackerReachable_wf h
  obtain ⟨s1, h1, hmem1, hwf1⟩ := (tryHold_spec hwf).2 hm
  have hm1 : m ∈ s1.members := by
    rw [hmem1]
    exact Finset.mem_insert_self m _
  obtain ⟨s2, h2, hmem2, -⟩ := (tryRelease_spec hwf1).2 hm1
  refine ⟨s1, s2, h1, h2, ?_⟩
  rw [hmem2, hmem1, Finset.erase_insert hm]

theorem C10_hold_release_roundtrip_witness :
    (1 ∉ TrackerState.members ⟨none, none⟩) ∧
    ∃ s1 s2,
      TryHoldSharedMutex 1 ⟨none, none⟩ = some (true, s1) ∧
      TryReleaseSharedMutex 1 s1 = (true, s2) ∧
      s2.members = TrackerState.members ⟨none, none⟩ :=
  ⟨by decide,
    C10_hold_release_roundtrip 1 ⟨none, none⟩ TrackerReachable.init (by decide)⟩

/-- Claim C4: for every exclusive `Mutex`, the debug level is always 0 or 1:
it is 0 at construction and before any Lock, `Lock` (and a successful
`TryLock`) asserts it is 0 and sets it to 1, `Unlock` asserts it is 1 and
sets it back to 0, and destruction asserts it equals 0. -/
theorem C4_mutex_level_zero_or_one (l : Int) (h : MutexReachable l) :
    (l = 0 ∨ l = 1) ∧
    Mutex.construct = 0 ∧
    (Mutex.Lock l ≠ none ↔ l = 0) ∧
    (∀ l', Mutex.Lock l = some l' → l = 0 ∧ l' = 1) ∧
    Mutex.TryLock false l = some (false, l) ∧
    (Mutex.TryLock true l ≠ none ↔ l = 0) ∧
    (∀ r l', Mutex.TryLock true l = some (r, l') → r = true ∧ l = 0 ∧ l' = 1) ∧
    (Mutex.Unlock l ≠ none ↔ l = 1) ∧
    (∀ l', Mutex.Unlock l = some l' → l = 1 ∧ l' = 0) ∧
    (Mutex.destruct l ≠ none ↔ l = 0) := by
  refine ⟨mutexReachable_zero_or_one h, rfl, ?_, ?_, ?_, ?_, ?_, ?_, ?_, ?_⟩
  · by_cases hl : l = 0 <;> simp [Mutex.Lock, AssertUnheldAndMark, hl]
  · intro l' hl
    unfold Mutex.Lock AssertUnheldAndMark at hl
    split at hl
    · injection hl with hl
      omega
    · exact Option.noConfusion hl
  · simp [Mutex.TryLock]
  · by_cases hl : l = 0 <;> simp [Mutex.TryLock, AssertUnheldAndMark, hl]
  · intro r l' hl
    unfold Mutex.TryLock AssertUnheldAndMark at hl
    split at hl
    · split at hl
      · injection hl with hl
        injection hl with h1 h2
        refine ⟨h1.symm, by omega, by omega⟩
      · exact Option.noConfusion hl
    · exact absurd rfl ‹¬true = true›
  · by_cases hl : l = 1 <;> simp [Mutex.Unlock, AssertHeldAndUnmark, hl]
  · intro l' hl
    unfold Mutex.Unlock AssertHeldAndUnmark at hl
    split at hl
    · injection hl with hl
      omega
    · exact Option.noConfusion hl
  · by_cases hl : l = 0 <;> simp [Mutex.destruct, hl]

theorem C4_mutex_level_zero_or_one_witness :
    ((0 : Int) = 0 ∨ (0 : Int) = 1) ∧
    Mutex.construct = 0 ∧
    (Mutex.Lock 0 ≠ none ↔ (0 : Int) = 0) ∧
    (∀ l', Mutex.Lock 0 = some l' → (0 : Int) = 0 ∧ l' = 1) ∧
    Mutex.TryLock false 0 = some (false, 0) ∧
    (Mutex.TryLock true 0 ≠ none ↔ (0 : Int) = 0) ∧
    (∀ r l', Mutex.TryLock true 0 = some (r, l') → r = true ∧ (0 : Int) = 0 ∧ l' = 1) ∧
    (Mutex.Unlock 0 ≠ none ↔ (0 : Int) = 1) ∧
    (∀ l', Mutex.Unlock 0 = some l' → (0 : Int) = 1 ∧ l' = 0) ∧
    (Mutex.destruct 0 ≠ none ↔ (0 : Int) = 0) :=
  C4_mutex_level_zero_or_one 0 MutexReachable.init

/-- Claim C5: for every `RecursiveMutex`, the debug depth is always
non-negative: it starts at 0, each `Lock` and each successful `TryLock`
increments it, each `Unlock` asserts it is positive and then decrements it,
it must equal 0 at destruction, and a failed `TryLock` leaves it
unchanged. -/
theorem C5_recursive_mutex_depth (l : Int) (h : RecursiveMutexReachable l) :
    0 ≤ l ∧
    RecursiveMutex.construct = 0 ∧
    RecursiveMutex.Lock l = some (l + 1) ∧
    RecursiveMutex.TryLock true l = some (true, l + 1) ∧
    RecursiveMutex.TryLock false l = some (false, l) ∧
    (RecursiveMutex.Unlock l ≠ none ↔ 0 < l) ∧
    (∀ l', RecursiveMutex.Unlock l = some l' → l' = l - 1) ∧
    (RecursiveMutex.destruct l ≠ none ↔ l = 0) := by
  have hnn := recursiveMutexReachable_nonneg h
  refine ⟨hnn, rfl, ?_, ?_, ?_, ?_, ?_, ?_⟩
  · simp [RecursiveMutex.Lock, hnn]
  · simp [RecursiveMutex.TryLock, hnn]
  · simp [RecursiveMutex.TryLock]
  · by_cases hl : 0 < l <;> simp [RecursiveMutex.Unlock, hl]
  · intro l' hl
    unfold RecursiveMutex.Unlock at hl
    split at hl
    · injection hl with hl
      omega
    · exact Option.noConfusion hl
  · by_cases hl : l = 0 <;> simp [RecursiveMutex.destruct, hl]

theorem C5_recursive_mutex_depth_witness :
    (0 : Int) ≤ 0 ∧
    RecursiveMutex.construct = 0 ∧
    RecursiveMutex.Lock 0 = some (0 + 1) ∧
    RecursiveMutex.TryLock true 0 = some (true, 0 + 1) ∧
    RecursiveMutex.TryLock false 0 = some (false, 0) ∧
    (RecursiveMutex.Unlock 0 ≠ none ↔ (0 : Int) < 0) ∧
    (∀ l', RecursiveMutex.Unlock 0 = some l' → l' = 0 - 1) ∧
    (RecursiveMutex.destruct 0 ≠ none ↔ (0 : Int) = 0) :=
  C5_recursive_mutex_depth 0 RecursiveMutexReachable.init

/-- Claim C6: calling `Unlock` on an exclusive `Mutex` whose debug level is 0
(no preceding matching `Lock`) hits the fatal debug violation path; `Unlock`
after a matching `Lock` does not. -/
theorem C6_unlock_without_lock_fatal :
    Mutex.Unlock Mutex.construct = none ∧
    (Mutex.Lock Mutex.construct).bind Mutex.Unlock = some 0 := by
  decide

/-- Claim C7: on Darwin, `SpinningMutex::Lock` probes the optional
`os_unfair_lock_lock_with_options` entry point; when it is available the
lock is acquired through it with the data-synchronization and adaptive-spin
options combined, and when it is unavailable the baseline locking call is
used with no options. -/
theorem C7_darwin_spinning_lock_dispatch (withOptionsAvailable : Bool) :
    (withOptionsAvailable = true →
      SpinningMutex.LockDarwin withOptionsAvailable =
        UnfairLockCall.lockWithOptions
          (OS_UNFAIR_LOCK_DATA_SYNCHRONIZATION ||| OS_UNFAIR_LOCK_ADAPTIVE_SPIN) ∧
      OS_UNFAIR_LOCK_DATA_SYNCHRONIZATION ||| OS_UNFAIR_LOCK_ADAPTIVE_SPIN =
        0x00050000) ∧
    (withOptionsAvailable = false →
      SpinningMutex.LockDarwin withOptionsAvailable =
        UnfairLockCall.lockBaseline) := by
  cases withOptionsAvailable <;> decide

theorem C7_darwin_spinning_lock_dispatch_witness :
    (SpinningMutex.LockDarwin true =
      UnfairLockCall.lockWithOptions
        (OS_UNFAIR_LOCK_DATA_SYNCHRONIZATION ||| OS_UNFAIR_LOCK_ADAPTIVE_SPIN) ∧
      OS_UNFAIR_LOCK_DATA_SYNCHRONIZATION ||| OS_UNFAIR_LOCK_ADAPTIVE_SPIN =
        0x00050000) ∧
    SpinningMutex.LockDarwin false = UnfairLockCall.lockBaseline :=
  ⟨(C7_darwin_spinning_lock_dispatch true).1 rfl,
    (C7_darwin_spinning_lock_dispatch false).2 rfl⟩

/-- Claim C8 counterexample: two executions of the Darwin
`SpinningMutex::Lock` body perform two probes of the weak symbol, refuting
that the capability detection is performed at most once per process with no
per-call branch on raw symbol presence: the presence test sits inside the
`Lock` body (mutex.cc line 37) and is re-evaluated on every call. -/
theorem C8_counterexample :
    spinningMutexLockProbes true 2 = 2 ∧
    ¬(spinningMutexLockProbes true 2 ≤ 1) := by
  decide

/-- Claim C8 (amended): the capability detection is not cached into a
once-resolved function; every execution of the Darwin `SpinningMutex::Lock`
body performs exactly one probe of the weak symbol (so `n` calls perform `n`
probes). The probe is cheaply idempotent: the weak-symbol address is fixed
at load time, so every call resolves to the same entry point, the one
`SpinningMutex.LockDarwin` selects from the symbol availability. -/
theorem C8_probe_on_every_call (withOptionsAvailable : Bool) (n : Nat) :
    (SpinningMutex.LockDarwinTraced withOptionsAvailable).1 = 1 ∧
    spinningMutexLockProbes withOptionsAvailable n = n ∧
    (SpinningMutex.LockDarwinTraced withOptionsAvailable).2 =
      SpinningMutex.LockDarwin withOptionsAvailable := by
  refine ⟨rfl, ?_, rfl⟩
  simp [spinningMutexLockProbes, SpinningMutex.LockDarwinTraced]
